import Mathlib

/-!
Shallow embedding of `rag/benchmark.py` (the RAGFlow retrieval-quality
benchmark) and proofs about it.

Modelling conventions:
* Python floats (similarity scores, hyperparameters) are modelled as `Rat`.
* Python `dict`s are modelled as insertion-ordered association lists with
  overwrite-on-existing-key semantics (`dictInsert`, `alookup`).
* External collaborators that live outside the benchmark file
  (the embedding model's `encode`, the hybrid retriever `retrieval`,
  the `ranx` metric `evaluate`) are parameters of the functions that call
  them, so theorems quantify over every possible collaborator behaviour.
* Exceptions are modelled with `Option`/`Except`.
-/

set_option maxRecDepth 8000

/-- Similarity scores and hyperparameters (Python floats) as rationals. -/
abbrev Score := Rat

/-- Association-list lookup with Python `dict` key semantics. -/
def alookup (m : List (String × β)) (k : String) : Option β :=
  (m.find? (fun p => p.1 == k)).map (fun p => p.2)

/-- Python `m[k] = v`: overwrite the value if `k` is a key, else append
`(k, v)` at the end (dicts preserve insertion order). -/
def dictInsert (m : List (String × β)) (k : String) (v : β) : List (String × β) :=
  if m.any (fun p => p.1 == k) then
    m.map (fun p => if p.1 == k then (k, v) else p)
  else m ++ [(k, v)]

/-- Qrels: query → (document id → integer relevance grade), built with
`defaultdict(dict)` semantics. -/
abbrev Qrels := List (String × List (String × Int))

/-- Run: query → (document id → retrieval score). -/
abbrev Run := List (String × List (String × Score))

/-- Texts: document id → raw text. -/
abbrev Texts := List (String × String)

/-- Nested insert `qrels[q][id] = rel` on a `defaultdict(dict)`. -/
def qrelsInsert (qrels : Qrels) (q id : String) (rel : Int) : Qrels :=
  dictInsert qrels q (dictInsert ((alookup qrels q).getD []) id rel)

/-- A document dict as built by the adapters: `{"id": ..., "kb_id": ...}`
enriched by `tokenize` with `content_with_weight` and by `embedding` with a
`q_<d>_vec` vector field. -/
structure Doc where
  id : String
  kb_id : Option String
  content_with_weight : String
  vectorFields : List (String × List Int)
deriving DecidableEq

/-- Modelled from the spec: `get_uuid` (external `api.utils`) generates a
fresh unique identifier per call ("UUID-grade", never reused); modelled as an
injective function of a per-run counter threaded by the caller. -/
def get_uuid (ctr : Nat) : String :=
  "uuid-" ++ toString ctr

/-- Modelled from the spec: `tokenize` (external `rag.nlp`, language-aware
tokenization "delegated to a text-processing collaborator, out of scope")
stores the raw text on the document as `content_with_weight`; the extra
token fields it adds are irrelevant to every claim and omitted. -/
def tokenize (d : Doc) (text : String) (lang : String) : Doc :=
  { d with content_with_weight := text }

/-- Modelled from the spec: `search.index_name` (external `rag.nlp.search`)
maps a collection id to its index name; line 53 of the source strips a
`ragflow_` prefix from it, so it is modelled as prefixing `ragflow_`. -/
def index_name (uid : String) : String :=
  "ragflow_" ++ uid

/-! ## Embedder (`Benchmark.embedding`, lines 63-73) -/

/-- Fuel-indexed batch splitter; `fuel` only bounds the recursion depth. -/
def chunksGo (B : Nat) : Nat → List α → List (List α)
  | 0, _ => []
  | _, [] => []
  | fuel + 1, x :: xs => (x :: xs).take B :: chunksGo B fuel ((x :: xs).drop B)

/-- The contiguous slices `l[i : i+B]` for `i in range(0, len(l), B)`,
exactly the batches the loop of `embedding` hands to `encode`. -/
def chunks (B : Nat) (l : List α) : List (List α) :=
  chunksGo B l.length l

/-- Name of the vector field: `"q_%d_vec" % len(v)`. -/
def vecFieldName (n : Nat) : String :=
  "q_" ++ toString n ++ "_vec"

/-- The assignment `d["q_%d_vec" % len(v)] = v`. -/
def setVecField (d : Doc) (v : List Int) : Doc :=
  { d with vectorFields := dictInsert d.vectorFields (vecFieldName v.length) v }

/-- The batches of texts passed to `self.embd_mdl.encode`, one call per
batch, in loop order. -/
def embeddingCalls (docs : List Doc) (batch_size : Nat) : List (List String) :=
  chunks batch_size (docs.map (fun d => d.content_with_weight))

/-- The list `vects` of the loop in `embedding`: the vectors `encode`
hands back, concatenated across all batches in batch order. -/
def embeddingVects (encode : List String → List (List Int) × Nat)
    (docs : List Doc) (batch_size : Nat) : List (List Int) :=
  ((embeddingCalls docs batch_size).map (fun b => (encode b).1)).flatten

/-- `Benchmark.embedding`: batch the texts, call `encode` once per batch,
concatenate the returned vectors, `assert len(docs) == len(vects)` (`none`
models the `AssertionError` aborting the call), then attach each vector to
its document. The collaborator `encode` returns a vector list and a token
count (the count is unused). -/
def embedding (encode : List String → List (List Int) × Nat) (docs : List Doc)
    (batch_size : Nat) : Option (List Doc) :=
  if docs.length = (embeddingVects encode docs batch_size).length then
    some ((docs.zip (embeddingVects encode docs batch_size)).map
      (fun p => setVecField p.1 p.2))
  else none

/-! ## Indexer: index lifecycle (`Benchmark.init_kb`, lines 75-82) -/

/-- Modelled from the spec: the search backend's store, a map from index
name to the documents the index holds (the durable system of record). -/
abbrev ESState := List (String × List Doc)

/-- Modelled from the spec: `indexExists(name) -> bool`. -/
def indexExist (st : ESState) (name : String) : Bool :=
  st.any (fun p => p.1 == name)

/-- Modelled from the spec: `deleteIndex(name)` removes the index of that
name from the store. -/
def deleteIdx (st : ESState) (name : String) : ESState :=
  st.filter (fun p => p.1 != name)

/-- Modelled from the spec: `createIndex(name, schema) -> bool` creates a
fresh empty index of that name; creating over an existing name is an error
(`false`). The fixed schema template (`conf/mapping.json`) affects no claim
and is not modelled. -/
def createIdx (st : ESState) (name : String) : ESState × Bool :=
  if indexExist st name then (st, false)
  else (st ++ [(name, [])], true)

/-- `Benchmark.init_kb`: delete the index of this name if present, then
create it fresh from the schema template; returns the success flag of the
creation. -/
def init_kb (st : ESState) (idx : String) : ESState × Bool :=
  let idxnm := index_name idx
  let st1 := if indexExist st idxnm then deleteIdx st idxnm else st
  createIdx st1 idxnm

/-! ## Benchmark session and Query Runner (`_get_retrieval`, lines 48-61) -/

/-- The benchmark session (`Benchmark.__init__`, lines 36-40).
Modelled from the spec for the external `KnowledgebaseService`: the
knowledge-base record supplies the similarity threshold and vector weight
that are copied onto the session once, at construction. -/
structure Benchmark where
  kb_id : String
  similarity_threshold : Score
  vector_similarity_weight : Score

/-- One candidate returned by the retrieval collaborator: the chunk fields
the query runner reads (`chunk_id`, `similarity`). The optional `vector`
payload is deleted by lines 57-58 before the run is written and can never
reach the run, so it is not modelled. -/
structure Chunk where
  chunk_id : String
  similarity : Score
deriving DecidableEq

/-- The argument tuple of one `retrievaler.retrieval(...)` invocation
(positional arguments of lines 53-55, named as in the spec interface). -/
structure RetrievalCall where
  query : String
  tenant : String
  kb_ids : List String
  offset : Nat
  limit : Nat
  similarity_threshold : Score
  vector_similarity_weight : Score
deriving DecidableEq

/-- The call `_get_retrieval` issues for one query (lines 53-55): offset
`0`, limit `30`, similarity threshold the literal `0.0`, vector weight
taken from the session. -/
def retrievalCallFor (b : Benchmark) (dataset_idxnm : String) (query : String) :
    RetrievalCall :=
  { query := query
    tenant := dataset_idxnm.replace ("ragflow_") ("")
    kb_ids := [b.kb_id]
    offset := 0
    limit := 30
    similarity_threshold := 0
    vector_similarity_weight := b.vector_similarity_weight }

/-- The retrieval calls issued by the loop of `_get_retrieval`, in order:
one per element of `list(qrels.keys())`. -/
def getRetrievalCalls (b : Benchmark) (qrels : Qrels) (dataset_idxnm : String) :
    List RetrievalCall :=
  (qrels.map (fun p => p.1)).map (retrievalCallFor b dataset_idxnm)

/-- Nested insert `run[query][chunk_id] = similarity` on `defaultdict(dict)`. -/
def runInsert (run : Run) (q id : String) (s : Score) : Run :=
  dictInsert run q (dictInsert ((alookup run q).getD []) id s)

/-- Inner loop of `_get_retrieval` (lines 56-59): fold the returned chunks
into the run for this query. -/
def procChunks (q : String) (cs : List Chunk) (run : Run) : Run :=
  cs.foldl (fun r c => runInsert r q c.chunk_id c.similarity) run

/-- Outer loop of `_get_retrieval` over `list(qrels.keys())`. -/
def getRetrievalGo (retrieve : RetrievalCall → List Chunk) (b : Benchmark)
    (dataset_idxnm : String) : List String → Run → Run
  | [], run => run
  | q :: qs, run =>
      getRetrievalGo retrieve b dataset_idxnm qs
        (procChunks q (retrieve (retrievalCallFor b dataset_idxnm q)) run)

/-- `Benchmark._get_retrieval`: replay every qrels query against the
retrieval collaborator and build the run, starting from the empty
`defaultdict(dict)`. -/
def get_retrieval (retrieve : RetrievalCall → List Chunk) (b : Benchmark)
    (qrels : Qrels) (dataset_idxnm : String) : Run :=
  getRetrievalGo retrieve b dataset_idxnm (qrels.map (fun p => p.1)) []

/-- The key set of an association-list dict, in insertion order. -/
def keysOf (m : List (String × β)) : List String :=
  m.map (fun p => p.1)

/-! ## Evaluator report (`Benchmark.save_results`, lines 201-216) -/

/-- The per-query record appended at lines 204-207: the query, its qrels
and run rows, and its single-query `ndcg@10` from the metrics collaborator. -/
structure KeepResult where
  query : String
  qrel : List (String × Int)
  run : List (String × Score)
  ndcg10 : Score
deriving DecidableEq

/-- One section of the Markdown report: the query, the `ndcg@10` printed in
its heading, and the hit lines in order, each as the pair (text written
after `- text:`, score written after `qrel:`). -/
structure ReportSection where
  query : String
  ndcg10 : Score
  hits : List (String × Score)
deriving DecidableEq

/-- Comparison used by `sorted(keep_result, key=lambda kk: kk['ndcg@10'])`. -/
def keepLe (a b : KeepResult) : Prop := a.ndcg10 ≤ b.ndcg10

instance : DecidableRel keepLe :=
  fun a b => inferInstanceAs (Decidable (a.ndcg10 ≤ b.ndcg10))

instance : IsTotal KeepResult keepLe := ⟨fun a b => le_total a.ndcg10 b.ndcg10⟩

instance : IsTrans KeepResult keepLe := ⟨fun _ _ _ h1 h2 => le_trans h1 h2⟩

/-- Comparison used by `sorted(scores, key=lambda kk: kk[1])`. -/
def hitLe (a b : String × Score) : Prop := a.2 ≤ b.2

instance : DecidableRel hitLe :=
  fun a b => inferInstanceAs (Decidable (a.2 ≤ b.2))

instance : IsTotal (String × Score) hitLe := ⟨fun a b => le_total a.2 b.2⟩

instance : IsTrans (String × Score) hitLe := ⟨fun _ _ _ h1 h2 => le_trans h1 h2⟩

/-- The `keep_result` list of lines 202-207: one entry per run key, with
the query's qrels row, its run row, and its single-query `ndcg@10` from
`ndcgEval` (the external `ranx.evaluate` on the singleton dicts of line
207). -/
def keepResults (ndcgEval : String → List (String × Int) → List (String × Score) → Score)
    (qrels : Qrels) (run : Run) : List KeepResult :=
  run.map (fun p =>
    { query := p.1
      qrel := (alookup qrels p.1).getD []
      run := p.2
      ndcg10 := ndcgEval p.1 ((alookup qrels p.1).getD []) p.2 })

/-- The section written for one `keep_result` entry (lines 212-216): the
heading with the query and its `ndcg@10`, then the first 10 of the run
items sorted ascending by score, each line carrying the stored text of the
hit and the hit's run score (the value printed after the label `qrel:`). -/
def renderSection (texts : Texts) (kr : KeepResult) : ReportSection :=
  { query := kr.query
    ndcg10 := kr.ndcg10
    hits := ((List.insertionSort hitLe kr.run).take 10).map
      (fun sc => ((alookup texts sc.1).getD (""), sc.2)) }

/-- `Benchmark.save_results`, restricted to the report it writes (the two
JSON artifacts of lines 217-218 dump `qrels` and `run` unchanged).
Python's stable `sorted` is modelled by insertion sort: the `keep_result`
entries are sorted ascending by `ndcg@10` (line 208) and rendered in that
order (lines 211-216). -/
def save_results (ndcgEval : String → List (String × Int) → List (String × Score) → Score)
    (qrels : Qrels) (run : Run) (texts : Texts) : List ReportSection :=
  (List.insertionSort keepLe (keepResults ndcgEval qrels run)).map
    (renderSection texts)

/-! ## ms_marco concurrent bulk-load result check (lines 95-98, 119-124) -/

/-- Outcome of one dispatched `slow_actions` task: the worker either ran to
completion (lines 96-98 all returned, whatever value `ELASTICSEARCH.bulk`
produced - `slow_actions` discards it), or some call inside it raised. -/
inductive BatchOutcome where
  | completed
  | raised (msg : String)
deriving DecidableEq

/-- A Python value as seen by the result-check loop: `slow_actions` ends in
`return True` (line 98), a plain bool, while the loop expects an object
carrying an `output` attribute. -/
inductive PyVal where
  | pyBool (b : Bool)
  | bulkResult (output : Bool)
deriving DecidableEq

/-- `threads[i].result()`: re-raise whatever the worker raised, otherwise
hand back the worker's return value, which is the Python literal `True`. -/
def futureResult : BatchOutcome → Except String PyVal
  | .completed => .ok (.pyBool true)
  | .raised m => .error m

/-- Python attribute access `v.output`; on a plain bool it raises
`AttributeError`. -/
def getattrOutput : PyVal → Except String Bool
  | .bulkResult b => .ok b
  | .pyBool _ => .error ("AttributeError")

/-- The result-check loop of `ms_marco_index` (lines 122-124): for each
dispatched thread evaluate `threads[i].result().output`, print
`Indexing error...` when it is falsy, and keep going; an uncaught
exception aborts the whole run. Returns the printed diagnostics. -/
def msMarcoCheckThreads : List BatchOutcome → Except String (List String)
  | [] => .ok []
  | o :: rest => do
    let v ← futureResult o
    let out ← getattrOutput v
    let logs ← msMarcoCheckThreads rest
    pure (if out then logs else ("Indexing error...") :: logs)

/-! ## Dataset adapters (lines 84-199) -/

/-- Pipeline events in program order: `embed n` for a call of
`self.embedding` on `n` accumulated documents, `bulk n` for a call of
`ELASTICSEARCH.bulk`, `dispatch n` for `exe.submit(slow_actions, ...)`
(ms_marco's concurrent variant, whose worker then embeds and bulk-loads
the dispatched copy). -/
inductive Ev where
  | embed (n : Nat)
  | bulk (n : Nat)
  | dispatch (n : Nat)
deriving DecidableEq

/-- Adapter loop state: the uuid counter, the two accumulator dicts, the
current micro-batch `docs`, and the pipeline trace. -/
structure AdapterState where
  ctr : Nat
  qrels : Qrels
  texts : Texts
  docs : List Doc
  trace : List Ev
deriving DecidableEq

/-- State at the top of each adapter (lines 85-87 / 129-131 / 171-173). -/
def initAdapterState : AdapterState :=
  { ctr := 0, qrels := [], texts := [], docs := [], trace := [] }

/-- One passage: build the document dict, tokenize it, append it to the
micro-batch, and record its text and relevance grade (lines 106-113,
139-145, 184-190). -/
def addPassage (kbId : Option String) (query : String) (rel : Int)
    (text : String) (st : AdapterState) : AdapterState :=
  let d := tokenize
    { id := get_uuid st.ctr, kb_id := kbId, content_with_weight := "",
      vectorFields := [] } text ("english")
  { st with
      ctr := st.ctr + 1
      docs := st.docs ++ [d]
      texts := dictInsert st.texts d.id text
      qrels := qrelsInsert st.qrels query d.id rel }

/-- Inline flush (lines 146-149, 151-152, 191-194, 196-197): embed the
accumulated batch, bulk-load it, reset the accumulator. -/
def flushInline (st : AdapterState) : AdapterState :=
  { st with docs := [],
            trace := st.trace ++ [Ev.embed st.docs.length, Ev.bulk st.docs.length] }

/-- Concurrent flush (lines 115-117, 119-120): submit `slow_actions` on a
deep copy of the accumulated batch to the worker pool, reset the
accumulator. -/
def flushDispatch (st : AdapterState) : AdapterState :=
  { st with docs := [], trace := st.trace ++ [Ev.dispatch st.docs.length] }

/-- One ms_marco source row: its query and its
`zip(passages.is_selected, passages.passage_text)`. -/
structure MsMarcoRecord where
  query : String
  passages : List (Int × String)

/-- Lines 104-117: append every passage of the record, then flush to the
worker pool when at least 32 documents have accumulated. -/
def msProcessRecord (kbId : String) (st : AdapterState) (r : MsMarcoRecord) :
    AdapterState :=
  let st1 := r.passages.foldl (fun s p => addPassage (some kbId) r.query p.1 p.2 s) st
  if 32 ≤ st1.docs.length then flushDispatch st1 else st1

/-- The record loop of `ms_marco_index` (the `init_kb` call and the
result-check loop are modelled separately). -/
def msMarcoLoop (kbId : String) (records : List MsMarcoRecord) : AdapterState :=
  records.foldl (msProcessRecord kbId) initAdapterState

/-- `Benchmark.ms_marco_index`, lines 100-120: the record loop followed by
the unconditional final dispatch of whatever remains. -/
def ms_marco_index (kbId : String) (records : List MsMarcoRecord) : AdapterState :=
  flushDispatch (msMarcoLoop kbId records)

/-- Sizes of the dispatched batches, in dispatch order, final one included. -/
def msMarcoDispatchSizes (kbId : String) (records : List MsMarcoRecord) : List Nat :=
  (ms_marco_index kbId records).trace.filterMap
    (fun e => match e with | Ev.dispatch n => some n | _ => none)

/-- One trivia_qa source row: its question and its
`zip(search_results.rank, search_results.search_context)`. -/
structure TriviaRecord where
  question : String
  results : List (Int × String)

/-- Lines 136-149: append every search result of the record, then flush
inline when at least 32 documents have accumulated. -/
def triviaProcessRecord (st : AdapterState) (r : TriviaRecord) : AdapterState :=
  let st1 := r.results.foldl (fun s p => addPassage none r.question p.1 p.2 s) st
  if 32 ≤ st1.docs.length then flushInline st1 else st1

/-- The record loop of `trivia_qa_index`. -/
def triviaLoop (records : List TriviaRecord) : AdapterState :=
  records.foldl triviaProcessRecord initAdapterState

/-- `Benchmark.trivia_qa_index`, lines 128-153: the record loop followed by
the unconditional final inline flush. -/
def trivia_qa_index (records : List TriviaRecord) : AdapterState :=
  flushInline (triviaLoop records)

/-- One miracl qrels row after the topic/corpus joins of lines 181-183
(file parsing and the id-to-text joins are dataset plumbing the spec
scopes out): the query, the document text, and the graded relevance. -/
structure MiraclRow where
  query : String
  text : String
  relevance : Int

/-- Lines 180-194: append the single document of the row, then flush
inline when at least 32 documents have accumulated. -/
def miraclProcessRow (st : AdapterState) (r : MiraclRow) : AdapterState :=
  let st1 := addPassage none r.query r.relevance r.text st
  if 32 ≤ st1.docs.length then flushInline st1 else st1

/-- The row loop of `miracl_index`. -/
def miraclLoop (rows : List MiraclRow) : AdapterState :=
  rows.foldl miraclProcessRow initAdapterState

/-- `Benchmark.miracl_index`, lines 155-199: the row loop followed by the
unconditional final inline flush. -/
def miracl_index (rows : List MiraclRow) : AdapterState :=
  flushInline (miraclLoop rows)

/-! ## Concrete inputs for witnesses and counterexamples -/

/-- A three-document batch with distinct texts. -/
def docsW : List Doc :=
  [{ id := "a", kb_id := none, content_with_weight := "ta", vectorFields := [] },
   { id := "b", kb_id := none, content_with_weight := "tb", vectorFields := [] },
   { id := "c", kb_id := none, content_with_weight := "tc", vectorFields := [] }]

/-- A well-behaved embedding collaborator: one 2-dimensional vector per
input text. -/
def encW : List String → List (List Int) × Nat :=
  fun l => (l.map (fun _ => [0, 1]), 0)

/-- The first two documents of `docsW`. -/
def docs2W : List Doc := docsW.take 2

/-- A misbehaving collaborator: two vectors for the batch `["ta"]`, none
for any other batch, so per-batch counts are wrong but the total matches. -/
def encBad : List String → List (List Int) × Nat :=
  fun l => if l = [("ta")] then ([[0], [0]], 0) else ([], 0)

/-- A session whose similarity threshold is 0.7 and vector weight 0.3. -/
def bC : Benchmark :=
  { kb_id := "kb", similarity_threshold := mkRat 7 10,
    vector_similarity_weight := mkRat 3 10 }

/-- A one-query qrels. -/
def qrelsC : Qrels := [("q1", [("d1", 1)])]

/-- A two-query qrels with distinct keys. -/
def qrelsC2 : Qrels := [("q1", [("d1", 1)]), ("q2", [("d2", 0)])]

/-- A retrieval collaborator that returns no chunk for any query. -/
def retrieveEmpty : RetrievalCall → List Chunk := fun _ => []

/-- A retrieval collaborator that returns one chunk for every query. -/
def retrieveOne : RetrievalCall → List Chunk :=
  fun _ => [{ chunk_id := "c1", similarity := 1 }]

/-- A metrics collaborator that scores every query 0. -/
def ndcg0 : String → List (String × Int) → List (String × Score) → Score :=
  fun _ _ _ => 0

/-- qrels for the report counterexample: document `d` has grade 1. -/
def qrelsC4 : Qrels := [("q", [("d", 1)])]

/-- run for the report counterexample: document `d` was retrieved with
score 1/2. -/
def runC4 : Run := [("q", [("d", mkRat 1 2)])]

/-- texts for the report counterexample. -/
def textsC4 : Texts := [("d", "T")]

/-- An 11-hit run for one query, scores 0..10. -/
def runC4b : Run :=
  [("q", (List.range 11).map (fun i => ("d" ++ toString i, (i : Score))))]

/-- 65 trivia_qa records, one search result (hence one document) each. -/
def c8TriviaRecords : List TriviaRecord :=
  List.replicate 65 { question := "q", results := [(1, "t")] }

/-- 65 ms_marco records, one passage (hence one document) each. -/
def c8MsRecords : List MsMarcoRecord :=
  List.replicate 65 { query := "q", passages := [(1, "t")] }

/-- 32 trivia_qa records of one document each: the record loop flushes all
of them and the final flush sees an empty accumulator. -/
def c9TriviaRecords : List TriviaRecord :=
  List.replicate 32 { question := "q", results := [(1, "t")] }

/-- One trivia_qa record carrying 33 search results: a single record can
push a flushed batch beyond the 32 threshold. -/
def c10TriviaRecord : TriviaRecord :=
  { question := "q", results := List.replicate 33 (1, "t") }

/-- 33 miracl rows (one document each): the loop flushes a batch of
exactly 32. -/
def c10MiraclRows : List MiraclRow :=
  List.replicate 33 { query := "q", text := "t", relevance := 1 }

/-! ## Supporting lemmas -/

lemma chunksGo_join (B : Nat) (hB : 0 < B) :
    ∀ (fuel : Nat) (l : List α), l.length ≤ fuel → (chunksGo B fuel l).flatten = l := by
  intro fuel
  induction fuel with
  | zero =>
    intro l hl
    cases l with
    | nil => rfl
    | cons x xs => simp at hl
  | succ f ih =>
    intro l hl
    cases l with
    | nil => rfl
    | cons x xs =>
      simp only [chunksGo, List.flatten]
      rw [ih]
      · exact List.take_append_drop B (x :: xs)
      · simp only [List.length_drop, List.length_cons] at *
        omega

lemma chunks_join (B : Nat) (hB : 0 < B) (l : List α) : (chunks B l).flatten = l :=
  chunksGo_join B hB l.length l le_rfl

lemma chunksGo_mem_length (B : Nat) :
    ∀ (fuel : Nat) (l : List α) (c : List α), c ∈ chunksGo B fuel l → c.length ≤ B := by
  intro fuel
  induction fuel with
  | zero => intro l c hc; simp [chunksGo] at hc
  | succ f ih =>
    intro l c hc
    cases l with
    | nil => simp [chunksGo] at hc
    | cons x xs =>
      simp only [chunksGo, List.mem_cons] at hc
      rcases hc with h | h
      · subst h
        simpa using List.length_take_le B (x :: xs)
      · exact ih _ _ h

lemma ceil_div_step (B len : Nat) (hB : 0 < B) (hlen : 0 < len) :
    (len + B - 1) / B = (len - B + B - 1) / B + 1 := by
  have h1 : (len + B - 1) / B = (len + B - 1 - B) / B + 1 := by
    apply Nat.div_eq_sub_div hB
    omega
  have h2 : len + B - 1 - B = len - 1 := by omega
  rw [h1, h2]
  rcases le_or_lt B len with hle | hlt
  · have : len - B + B - 1 = len - 1 := by omega
    rw [this]
  · have h3 : len - B = 0 := by omega
    rw [h3]
    have h4 : (B - 1) / B = 0 := Nat.div_eq_of_lt (by omega)
    have h5 : (len - 1) / B = 0 := Nat.div_eq_of_lt (by omega)
    simp [h4, h5]

lemma chunksGo_length (B : Nat) (hB : 0 < B) :
    ∀ (fuel : Nat) (l : List α), l.length ≤ fuel →
      (chunksGo B fuel l).length = (l.length + B - 1) / B := by
  intro fuel
  induction fuel with
  | zero =>
    intro l hl
    cases l with
    | nil => simp [chunksGo, Nat.div_eq_of_lt, hB, Nat.sub_lt hB]
    | cons x xs => simp at hl
  | succ f ih =>
    intro l hl
    cases l with
    | nil => simp [chunksGo, Nat.div_eq_of_lt, hB, Nat.sub_lt hB]
    | cons x xs =>
      simp only [chunksGo, List.length_cons]
      rw [ih]
      · rw [List.length_drop]
        exact (ceil_div_step B (xs.length + 1) hB (by omega)).symm
      · simp only [List.length_drop, List.length_cons] at *
        omega

/-- Number of batches equals `ceil(N / B)`. -/
lemma chunks_length (B : Nat) (hB : 0 < B) (l : List α) :
    (chunks B l).length = (l.length + B - 1) / B :=
  chunksGo_length B hB l.length l le_rfl

lemma keysOf_dictInsert (m : List (String × β)) (k : String) (v : β) :
    keysOf (dictInsert m k v) =
      if k ∈ keysOf m then keysOf m else keysOf m ++ [k] := by
  have hmem : (m.any fun p => p.1 == k) = true ↔ k ∈ keysOf m := by
    unfold keysOf
    rw [List.any_eq_true]
    constructor
    · rintro ⟨p, hp, hpk⟩
      rw [beq_iff_eq] at hpk
      exact hpk ▸ List.mem_map_of_mem (fun p => p.1) hp
    · intro hk
      obtain ⟨p, hp, hpk⟩ := List.mem_map.mp hk
      refine ⟨p, hp, ?_⟩
      rw [beq_iff_eq, hpk]
  unfold dictInsert
  by_cases h : (m.any fun p => p.1 == k) = true
  · rw [if_pos h, if_pos (hmem.mp h)]
    unfold keysOf
    rw [List.map_map]
    apply List.map_congr_left
    intro p hp
    by_cases hpk : p.1 = k
    · simp [Function.comp, beq_iff_eq, hpk]
    · simp [Function.comp, beq_iff_eq, hpk]
  · rw [if_neg h, if_neg (fun hk => h (hmem.mpr hk))]
    simp [keysOf]

lemma mem_keysOf_dictInsert (m : List (String × β)) (k : String) (v : β)
    (x : String) : x ∈ keysOf (dictInsert m k v) ↔ x ∈ keysOf m ∨ x = k := by
  rw [keysOf_dictInsert]
  by_cases h : k ∈ keysOf m
  · rw [if_pos h]
    constructor
    · exact Or.inl
    · rintro (hx | rfl)
      · exact hx
      · exact h
  · rw [if_neg h]
    simp

lemma mem_keysOf_runInsert (run : Run) (q id : String) (s : Score)
    (x : String) : x ∈ keysOf (runInsert run q id s) ↔ x ∈ keysOf run ∨ x = q := by
  unfold runInsert
  exact mem_keysOf_dictInsert run q _ x

lemma mem_keysOf_procChunks (cs : List Chunk) (q : String) (run : Run)
    (x : String) :
    x ∈ keysOf (procChunks q cs run) ↔ x ∈ keysOf run ∨ (cs ≠ [] ∧ x = q) := by
  induction cs generalizing run with
  | nil => simp [procChunks]
  | cons c cs ih =>
    show x ∈ keysOf (procChunks q cs (runInsert run q c.chunk_id c.similarity)) ↔ _
    rw [ih, mem_keysOf_runInsert]
    constructor
    · rintro ((h | h) | ⟨-, h⟩)
      · exact Or.inl h
      · exact Or.inr ⟨List.cons_ne_nil c cs, h⟩
      · exact Or.inr ⟨List.cons_ne_nil c cs, h⟩
    · rintro (h | ⟨-, h⟩)
      · exact Or.inl (Or.inl h)
      · exact Or.inl (Or.inr h)

lemma mem_keysOf_getRetrievalGo (retrieve : RetrievalCall → List Chunk)
    (b : Benchmark) (idx : String) (qs : List String) (run : Run) (x : String) :
    x ∈ keysOf (getRetrievalGo retrieve b idx qs run) ↔
      x ∈ keysOf run ∨
        ∃ q ∈ qs, retrieve (retrievalCallFor b idx q) ≠ [] ∧ x = q := by
  induction qs generalizing run with
  | nil => simp [getRetrievalGo]
  | cons q qs ih =>
    show x ∈ keysOf (getRetrievalGo retrieve b idx qs _) ↔ _
    rw [ih, mem_keysOf_procChunks]
    constructor
    · rintro ((h | ⟨hne, hx⟩) | ⟨p, hp, hne, hx⟩)
      · exact Or.inl h
      · exact Or.inr ⟨q, List.mem_cons_self q qs, hne, hx⟩
      · exact Or.inr ⟨p, List.mem_cons_of_mem q hp, hne, hx⟩
    · rintro (h | ⟨p, hp, hne, hx⟩)
      · exact Or.inl (Or.inl h)
      · rcases List.mem_cons.mp hp with rfl | hp
        · exact Or.inl (Or.inr ⟨hne, hx⟩)
        · exact Or.inr ⟨p, hp, hne, hx⟩

lemma mem_dictInsert_self (m : List (String × β)) (k : String) (v : β) :
    (k, v) ∈ dictInsert m k v := by
  unfold dictInsert
  by_cases h : (m.any fun p => p.1 == k) = true
  · rw [if_pos h]
    rw [List.any_eq_true] at h
    obtain ⟨p, hp, hpk⟩ := h
    refine List.mem_map.mpr ⟨p, hp, ?_⟩
    simp [hpk]
  · rw [if_neg h]
    exact List.mem_append_right _ (List.mem_singleton.mpr rfl)

lemma indexExist_deleteIdx (st : ESState) (name : String) :
    indexExist (deleteIdx st name) name = false := by
  unfold indexExist deleteIdx
  rw [Bool.eq_false_iff]
  intro hc
  rw [List.any_eq_true] at hc
  obtain ⟨p, hp, hpk⟩ := hc
  have h2 := (List.mem_filter.mp hp).2
  rw [bne_iff_ne] at h2
  exact h2 (by rwa [beq_iff_eq] at hpk)

lemma alookup_of_not_exist (st : ESState) (name : String)
    (h : indexExist st name = false) (v : List Doc) :
    alookup (st ++ [(name, v)]) name = some v := by
  unfold alookup
  rw [List.find?_append]
  have h1 : st.find? (fun p => p.1 == name) = none := by
    rw [List.find?_eq_none]
    intro p hp hpk
    unfold indexExist at h
    rw [Bool.eq_false_iff] at h
    exact h (List.any_eq_true.mpr ⟨p, hp, hpk⟩)
  rw [h1]
  simp [List.find?]

lemma init_kb_ok (st : ESState) (idx : String) :
    (init_kb st idx).2 = true ∧
      alookup (init_kb st idx).1 (index_name idx) = some [] := by
  have hne : indexExist
      (if indexExist st (index_name idx) then deleteIdx st (index_name idx) else st)
      (index_name idx) = false := by
    by_cases h : indexExist st (index_name idx) = true
    · rw [if_pos h]
      exact indexExist_deleteIdx st (index_name idx)
    · rw [if_neg (by simpa using h)]
      exact Bool.eq_false_iff.mpr h
  have heq : init_kb st idx =
      ((if indexExist st (index_name idx) then deleteIdx st (index_name idx) else st)
          ++ [(index_name idx, [])], true) := by
    unfold init_kb createIdx
    simp [hne]
  rw [heq]
  exact ⟨rfl, alookup_of_not_exist _ _ hne []⟩

lemma addPassage_trace (kbId : Option String) (q : String) (rel : Int)
    (t : String) (st : AdapterState) :
    (addPassage kbId q rel t st).trace = st.trace := rfl

lemma addPassage_docs_length (kbId : Option String) (q : String) (rel : Int)
    (t : String) (st : AdapterState) :
    (addPassage kbId q rel t st).docs.length = st.docs.length + 1 := by
  simp [addPassage]

lemma foldl_addPassage_trace (ps : List (Int × String)) (kbId : Option String)
    (q : String) (st : AdapterState) :
    (ps.foldl (fun s p => addPassage kbId q p.1 p.2 s) st).trace = st.trace := by
  induction ps generalizing st with
  | nil => rfl
  | cons p ps ih => rw [List.foldl_cons, ih, addPassage_trace]

lemma dispatch_mem_flushDispatch (st : AdapterState) (n : Nat)
    (hn : Ev.dispatch n ∈ (flushDispatch st).trace) :
    Ev.dispatch n ∈ st.trace ∨ n = st.docs.length := by
  rcases List.mem_append.mp hn with h | h
  · exact Or.inl h
  · rw [List.mem_singleton] at h
    injection h with h
    exact Or.inr h

lemma embed_mem_flushInline (st : AdapterState) (n : Nat)
    (hn : Ev.embed n ∈ (flushInline st).trace) :
    Ev.embed n ∈ st.trace ∨ n = st.docs.length := by
  rcases List.mem_append.mp hn with h | h
  · exact Or.inl h
  · rcases List.mem_cons.mp h with h | h
    · injection h with h
      exact Or.inr h
    · rw [List.mem_singleton] at h
      simp at h

lemma msMarcoLoop_dispatch_ge (kbId : String) (records : List MsMarcoRecord) :
    ∀ n, Ev.dispatch n ∈ (msMarcoLoop kbId records).trace → 32 ≤ n := by
  suffices h : ∀ st, (∀ n, Ev.dispatch n ∈ st.trace → 32 ≤ n) →
      ∀ n, Ev.dispatch n ∈ (records.foldl (msProcessRecord kbId) st).trace → 32 ≤ n by
    intro n hn
    refine h initAdapterState ?_ n hn
    intro m hm
    simp [initAdapterState] at hm
  induction records with
  | nil => intro st hst n hn; exact hst n hn
  | cons r rs ih =>
    intro st hst n hn
    rw [List.foldl_cons] at hn
    refine ih (msProcessRecord kbId st r) ?_ n hn
    intro m hm
    unfold msProcessRecord at hm
    by_cases hc : 32 ≤ (r.passages.foldl
        (fun s p => addPassage (some kbId) r.query p.1 p.2 s) st).docs.length
    · rw [if_pos hc] at hm
      rcases dispatch_mem_flushDispatch _ _ hm with h1 | h1
      · rw [foldl_addPassage_trace] at h1
        exact hst m h1
      · omega
    · rw [if_neg hc] at hm
      rw [foldl_addPassage_trace] at hm
      exact hst m hm

lemma triviaLoop_embed_ge (records : List TriviaRecord) :
    ∀ n, Ev.embed n ∈ (triviaLoop records).trace → 32 ≤ n := by
  suffices h : ∀ st, (∀ n, Ev.embed n ∈ st.trace → 32 ≤ n) →
      ∀ n, Ev.embed n ∈ (records.foldl triviaProcessRecord st).trace → 32 ≤ n by
    intro n hn
    refine h initAdapterState ?_ n hn
    intro m hm
    simp [initAdapterState] at hm
  induction records with
  | nil => intro st hst n hn; exact hst n hn
  | cons r rs ih =>
    intro st hst n hn
    rw [List.foldl_cons] at hn
    refine ih (triviaProcessRecord st r) ?_ n hn
    intro m hm
    unfold triviaProcessRecord at hm
    by_cases hc : 32 ≤ (r.results.foldl
        (fun s p => addPassage none r.question p.1 p.2 s) st).docs.length
    · rw [if_pos hc] at hm
      rcases embed_mem_flushInline _ _ hm with h1 | h1
      · rw [foldl_addPassage_trace] at h1
        exact hst m h1
      · omega
    · rw [if_neg hc] at hm
      rw [foldl_addPassage_trace] at hm
      exact hst m hm

lemma miraclLoop_invariant (rows : List MiraclRow) :
    (miraclLoop rows).docs.length < 32 ∧
      ∀ n, Ev.embed n ∈ (miraclLoop rows).trace → n = 32 := by
  suffices h : ∀ st, st.docs.length < 32 → (∀ n, Ev.embed n ∈ st.trace → n = 32) →
      (rows.foldl miraclProcessRow st).docs.length < 32 ∧
        ∀ n, Ev.embed n ∈ (rows.foldl miraclProcessRow st).trace → n = 32 by
    refine h initAdapterState (by simp [initAdapterState]) ?_
    intro n hn
    simp [initAdapterState] at hn
  induction rows with
  | nil => intro st h1 h2; exact ⟨h1, h2⟩
  | cons r rs ih =>
    intro st h1 h2
    rw [List.foldl_cons]
    have hd := addPassage_docs_length none r.query r.relevance r.text st
    unfold miraclProcessRow
    by_cases hc : 32 ≤ (addPassage none r.query r.relevance r.text st).docs.length
    · rw [if_pos hc]
      refine ih _ (by simp [flushInline]) ?_
      intro n hn
      rcases embed_mem_flushInline _ _ hn with hh | hh
      · rw [addPassage_trace] at hh
        exact h2 n hh
      · omega
    · rw [if_neg hc]
      refine ih _ (by omega) ?_
      intro n hn
      rw [addPassage_trace] at hn
      exact h2 n hn

/-! ## Claims -/

/-- Claim C1 (code-bug evidence): the result-check loop of `ms_marco_index`
can never log a bulk-load failure and continue. Each dispatched
`slow_actions` returns the Python bool `True`, so
`threads[i].result().output` raises `AttributeError` even when every bulk
load succeeded; when the worker raised instead, `result()` re-raises that
error unlogged. Either way the check aborts on its very first thread, and
there is always at least one dispatched thread. -/
theorem spec_c1 :
    (∀ rest, msMarcoCheckThreads (BatchOutcome.completed :: rest) =
        Except.error ("AttributeError")) ∧
    (∀ m rest, msMarcoCheckThreads (BatchOutcome.raised m :: rest) =
        Except.error m) ∧
    (∀ o rest, ∃ e, msMarcoCheckThreads (o :: rest) = Except.error e) ∧
    (∀ kbId records, 0 < (msMarcoDispatchSizes kbId records).length) := by
  refine ⟨fun rest => rfl, fun m rest => rfl, ?_, ?_⟩
  · intro o rest
    cases o with
    | completed => exact ⟨"AttributeError", rfl⟩
    | raised m => exact ⟨m, rfl⟩
  · intro kbId records
    simp [msMarcoDispatchSizes, ms_marco_index, flushDispatch, List.filterMap_append]

/-- Claim C7: `init_kb` is delete-then-create. For every prior store state
it succeeds and leaves a fresh empty index under the target name, and a
second call on the resulting state does exactly the same, so no call can
fail from creating over an existing index. -/
theorem spec_c7 (st : ESState) (idx : String) :
    (init_kb st idx).2 = true ∧
    alookup (init_kb st idx).1 (index_name idx) = some [] ∧
    (init_kb (init_kb st idx).1 idx).2 = true ∧
    alookup (init_kb (init_kb st idx).1 idx).1 (index_name idx) = some [] := by
  obtain ⟨h1, h2⟩ := init_kb_ok st idx
  obtain ⟨h3, h4⟩ := init_kb_ok (init_kb st idx).1 idx
  exact ⟨h1, h2, h3, h4⟩

/-- Claim C8: 65 one-document records against the 32 threshold produce
exactly three flush events of sizes 32, 32 and 1. For trivia_qa each flush
is one `embedding` call immediately followed by one bulk load; for
ms_marco each flush is one worker-pool dispatch. -/
theorem spec_c8 :
    (trivia_qa_index c8TriviaRecords).trace =
      [Ev.embed 32, Ev.bulk 32, Ev.embed 32, Ev.bulk 32, Ev.embed 1, Ev.bulk 1] ∧
    msMarcoDispatchSizes ("kb") c8MsRecords = [32, 32, 1] := by decide

/-- Claim C9 (amended): every adapter performs its final flush
unconditionally after the record loop - ms_marco submits one extra worker
dispatch, the other adapters run the embed step and then the bulk load on
whatever remains, even an empty batch - but on an empty final batch the
embed step issues zero calls to the embedding collaborator and hands the
empty document list to the bulk load. -/
theorem spec_c9 :
    (∀ kbId records, (ms_marco_index kbId records).trace =
      (msMarcoLoop kbId records).trace ++
        [Ev.dispatch (msMarcoLoop kbId records).docs.length]) ∧
    (∀ records, (trivia_qa_index records).trace =
      (triviaLoop records).trace ++
        [Ev.embed (triviaLoop records).docs.length,
         Ev.bulk (triviaLoop records).docs.length]) ∧
    (∀ rows, (miracl_index rows).trace =
      (miraclLoop rows).trace ++
        [Ev.embed (miraclLoop rows).docs.length,
         Ev.bulk (miraclLoop rows).docs.length]) ∧
    embeddingCalls ([] : List Doc) 16 = [] ∧
    (∀ encode, embedding encode ([] : List Doc) 16 = some []) :=
  ⟨fun _ _ => rfl, fun _ => rfl, fun _ => rfl, rfl, fun _ => rfl⟩

/-- Counterexample to C9 as stated: with 32 one-document records the final
flush sees an empty accumulator. The final embed step and bulk load do run
(trace events `embed 0`, `bulk 0`), but the embedding collaborator itself
is called zero times - there is no `encode` invocation for the empty
batch, contradicting that the collaborator is "still invoked on an empty
document list". -/
theorem spec_c9_counterexample :
    (triviaLoop c9TriviaRecords).docs = [] ∧
    (trivia_qa_index c9TriviaRecords).trace =
      [Ev.embed 32, Ev.bulk 32, Ev.embed 0, Ev.bulk 0] ∧
    (embeddingCalls (triviaLoop c9TriviaRecords).docs 16).length = 0 := by decide

/-- Claim C10: in ms_marco and trivia_qa the threshold is checked only
after appending all passages of a record, so every threshold-triggered
flush carries at least 32 documents, and one many-passage record can push
a flush strictly beyond 32 (witnessed by a 33-passage record); miracl
appends one document per row and checks after each, so its
threshold-triggered flushes carry exactly 32. -/
theorem spec_c10 :
    (∀ kbId records n, Ev.dispatch n ∈ (msMarcoLoop kbId records).trace → 32 ≤ n) ∧
    (∀ records n, Ev.embed n ∈ (triviaLoop records).trace → 32 ≤ n) ∧
    (triviaLoop [c10TriviaRecord]).trace = [Ev.embed 33, Ev.bulk 33] ∧
    (∀ rows n, Ev.embed n ∈ (miraclLoop rows).trace → n = 32) := by
  refine ⟨?_, ?_, by decide, ?_⟩
  · intro kbId records n hn
    exact msMarcoLoop_dispatch_ge kbId records n hn
  · intro records n hn
    exact triviaLoop_embed_ge records n hn
  · intro rows n hn
    exact (miraclLoop_invariant rows).2 n hn

/-- Witness for C10: concrete traces containing threshold flushes, with
the theorem applied to them. -/
theorem spec_c10_witness :
    Ev.dispatch 32 ∈ (msMarcoLoop ("kb") c8MsRecords).trace ∧
    Ev.embed 32 ∈ (triviaLoop c8TriviaRecords).trace ∧
    Ev.embed 32 ∈ (miraclLoop c10MiraclRows).trace ∧
    32 ≤ 32 ∧ (32 : Nat) = 32 :=
  ⟨by decide, by decide, by decide,
   spec_c10.1 ("kb") c8MsRecords 32 (by decide),
   spec_c10.2.2.2 c10MiraclRows 32 (by decide)⟩

/-- Claim C2 (amended): for every qrels with distinct keys the query
runner issues exactly one retrieval call per key, each with offset 0,
limit 30, the session's vector-similarity weight, and similarity
threshold the hard-coded literal `0.0` of line 55 (not the session's
threshold hyperparameter). -/
theorem spec_c2 (b : Benchmark) (qrels : Qrels) (idxnm : String)
    (hnd : (keysOf qrels).Nodup) :
    ((getRetrievalCalls b qrels idxnm).map (fun c => c.query) = keysOf qrels) ∧
    (∀ q ∈ keysOf qrels,
      ((getRetrievalCalls b qrels idxnm).filter (fun c => c.query == q)).length = 1) ∧
    (∀ c ∈ getRetrievalCalls b qrels idxnm,
      c.offset = 0 ∧ c.limit = 30 ∧ c.similarity_threshold = 0 ∧
        c.vector_similarity_weight = b.vector_similarity_weight) := by
  have hmap : (getRetrievalCalls b qrels idxnm).map (fun c => c.query)
      = keysOf qrels := by
    unfold getRetrievalCalls keysOf
    rw [List.map_map]
    have hcomp : ((fun c => c.query) ∘ retrievalCallFor b idxnm) = fun q => q := rfl
    rw [hcomp, List.map_id']
  refine ⟨hmap, ?_, ?_⟩
  · intro q hq
    rw [← List.countP_eq_length_filter]
    have h1 : List.countP (fun c => c.query == q) (getRetrievalCalls b qrels idxnm)
        = List.countP (fun x => x == q)
            ((getRetrievalCalls b qrels idxnm).map (fun c => c.query)) := by
      rw [List.countP_map]
      rfl
    rw [h1, hmap]
    have h2 := List.count_eq_one_of_mem hnd hq
    simpa [List.count] using h2
  · intro c hc
    unfold getRetrievalCalls at hc
    obtain ⟨q, hq, hcq⟩ := List.mem_map.mp hc
    rw [← hcq]
    exact ⟨rfl, rfl, rfl, rfl⟩

/-- Witness for C2 at a two-query qrels and a concrete session. -/
theorem spec_c2_witness :
    (keysOf qrelsC2).Nodup ∧
    (((getRetrievalCalls bC qrelsC2 ("idx")).map (fun c => c.query)
        = keysOf qrelsC2) ∧
     (∀ q ∈ keysOf qrelsC2,
       ((getRetrievalCalls bC qrelsC2 ("idx")).filter
         (fun c => c.query == q)).length = 1) ∧
     (∀ c ∈ getRetrievalCalls bC qrelsC2 ("idx"),
       c.offset = 0 ∧ c.limit = 30 ∧ c.similarity_threshold = 0 ∧
         c.vector_similarity_weight = bC.vector_similarity_weight)) :=
  ⟨by decide, spec_c2 bC qrelsC2 ("idx") (by decide)⟩

/-- Counterexample to C2 as stated: for a session whose similarity
threshold is 0.7 the issued call carries similarity threshold 0 - the
literal `0.0` of line 55 - not the session hyperparameter. -/
theorem spec_c2_counterexample :
    (getRetrievalCalls bC qrelsC ("benchmark_ms_marco_v1.1")).map
        (fun c => c.similarity_threshold) = [0] ∧
    bC.similarity_threshold = mkRat 7 10 ∧
    (0 : Score) < mkRat 7 10 := by decide

/-- Claim C3 (amended): the run's key set is always a subset of the qrels
key set; it consists of exactly those qrels queries whose retrieval
returned at least one chunk, so it equals the qrels key set - on any
dataset - exactly when every query's retrieval is non-empty. -/
theorem spec_c3 (retrieve : RetrievalCall → List Chunk) (b : Benchmark)
    (qrels : Qrels) (idxnm : String) :
    (∀ x ∈ keysOf (get_retrieval retrieve b qrels idxnm), x ∈ keysOf qrels) ∧
    (∀ x, x ∈ keysOf (get_retrieval retrieve b qrels idxnm) ↔
      ∃ q ∈ keysOf qrels, retrieve (retrievalCallFor b idxnm q) ≠ [] ∧ x = q) ∧
    ((∀ q ∈ keysOf qrels, retrieve (retrievalCallFor b idxnm q) ≠ []) →
      ∀ x, x ∈ keysOf (get_retrieval retrieve b qrels idxnm) ↔ x ∈ keysOf qrels) := by
  have hmaster : ∀ x, x ∈ keysOf (get_retrieval retrieve b qrels idxnm) ↔
      ∃ q ∈ keysOf qrels, retrieve (retrievalCallFor b idxnm q) ≠ [] ∧ x = q := by
    intro x
    unfold get_retrieval
    rw [mem_keysOf_getRetrievalGo]
    unfold keysOf
    simp
  refine ⟨?_, hmaster, ?_⟩
  · intro x hx
    obtain ⟨q, hq, hne, rfl⟩ := (hmaster x).mp hx
    exact hq
  · intro hall x
    rw [hmaster x]
    constructor
    · rintro ⟨q, hq, hne, rfl⟩
      exact hq
    · intro hx
      exact ⟨x, hx, hall x hx, rfl⟩

/-- Witness for C3: with a collaborator returning one chunk per query the
run keys coincide with the qrels keys. -/
theorem spec_c3_witness :
    (∀ q ∈ keysOf qrelsC, retrieveOne (retrievalCallFor bC ("idx") q) ≠ []) ∧
    (∀ x, x ∈ keysOf (get_retrieval retrieveOne bC qrelsC ("idx")) ↔
      x ∈ keysOf qrelsC) :=
  ⟨by decide, (spec_c3 retrieveOne bC qrelsC ("idx")).2.2 (by decide)⟩

/-- Counterexample to C3 as stated: with a retrieval collaborator that
returns no chunks the run has no keys while qrels has one, so
`keys(run) == keys(qrels)` fails - the query runner is shared by all
datasets, ms_marco_v1.1 and trivia_qa included. -/
theorem spec_c3_counterexample :
    keysOf (get_retrieval retrieveEmpty bC qrelsC ("benchmark_trivia_qa")) = [] ∧
    keysOf qrelsC = [("q1")] := by decide

/-- Claim C4 (amended): the report's sections appear in ascending order of
per-query `ndcg@10`, and each section lists the up-to-10 LOWEST-scored run
hits of its query in ascending score order, each rendered with the hit's
stored full text and the hit's run score (printed under the label `qrel:`,
not the qrels relevance grade). -/
theorem spec_c4 (ndcgEval : String → List (String × Int) → List (String × Score) → Score)
    (qrels : Qrels) (run : Run) (texts : Texts) :
    List.Pairwise (fun a b : ReportSection => a.ndcg10 ≤ b.ndcg10)
        (save_results ndcgEval qrels run texts) ∧
    ∀ s ∈ save_results ndcgEval qrels run texts,
      ∃ rl, (s.query, rl) ∈ run ∧
        s.ndcg10 = ndcgEval s.query ((alookup qrels s.query).getD []) rl ∧
        ∃ low rest, (low ++ rest).Perm rl ∧ List.Pairwise hitLe (low ++ rest) ∧
          low.length = min 10 rl.length ∧
          s.hits = low.map (fun sc => ((alookup texts sc.1).getD (""), sc.2)) := by
  constructor
  · unfold save_results
    rw [List.pairwise_map]
    exact List.sorted_insertionSort keepLe _
  · intro s hs
    unfold save_results at hs
    obtain ⟨kr, hkr, rfl⟩ := List.mem_map.mp hs
    have hkr2 : kr ∈ keepResults ndcgEval qrels run :=
      (List.perm_insertionSort keepLe _).mem_iff.mp hkr
    obtain ⟨p, hp, rfl⟩ := List.mem_map.mp hkr2
    refine ⟨p.2, ?_, rfl, ?_⟩
    · simpa using hp
    · refine ⟨(List.insertionSort hitLe p.2).take 10,
        (List.insertionSort hitLe p.2).drop 10, ?_, ?_, ?_, rfl⟩
      · rw [List.take_append_drop]
        exact List.perm_insertionSort hitLe p.2
      · rw [List.take_append_drop]
        exact List.sorted_insertionSort hitLe p.2
      · rw [List.length_take, List.length_insertionSort]

/-- Witness for C4 at the concrete report input. -/
theorem spec_c4_witness :
    ({ query := "q", ndcg10 := 0, hits := [("T", mkRat 1 2)] } : ReportSection)
        ∈ save_results ndcg0 qrelsC4 runC4 textsC4 ∧
    (∃ rl, ((("q") : String), rl) ∈ runC4 ∧
      (0 : Score) = ndcg0 ("q") ((alookup qrelsC4 ("q")).getD []) rl ∧
      ∃ low rest, (low ++ rest).Perm rl ∧ List.Pairwise hitLe (low ++ rest) ∧
        low.length = min 10 rl.length ∧
        [(("T" : String), mkRat 1 2)] =
          low.map (fun sc => ((alookup textsC4 sc.1).getD (""), sc.2))) :=
  ⟨by decide, (spec_c4 ndcg0 qrelsC4 runC4 textsC4).2
    { query := "q", ndcg10 := 0, hits := [("T", mkRat 1 2)] } (by decide)⟩

/-- Counterexample to C4 as stated: document `d` has relevance grade 1 in
qrels but its report line carries 1/2 - the run score - so hits are not
listed "with each hit's relevance grade"; and with 11 retrieved documents
of scores 0..10 the section keeps the ten LOWEST scores 0..9 and drops the
highest-scored hit, the opposite of "the up-to-10 highest-scored". -/
theorem spec_c4_counterexample :
    save_results ndcg0 qrelsC4 runC4 textsC4 =
      [{ query := "q", ndcg10 := 0, hits := [("T", mkRat 1 2)] }] ∧
    alookup ((alookup qrelsC4 ("q")).getD []) ("d") = some 1 ∧
    mkRat 1 2 < 1 ∧
    (save_results ndcg0 qrelsC4 runC4b textsC4).map (fun s => s.hits) =
      [(List.range 10).map (fun i => ("", (i : Score)))] := by decide

/-- Claim C5: for any document sequence and positive batch size the
embedding loop hands `encode` exactly `ceil(N/B)` contiguous batches of at
most `B` texts whose concatenation is the document texts in order, and a
normal return carries exactly `N` documents, each holding a vector field
whose name encodes the length of that document's vector. -/
theorem spec_c5 (encode : List String → List (List Int) × Nat) (docs : List Doc)
    (B : Nat) (hB : 0 < B) :
    (embeddingCalls docs B).length = (docs.length + B - 1) / B ∧
    (embeddingCalls docs B).flatten = docs.map (fun d => d.content_with_weight) ∧
    (∀ c ∈ embeddingCalls docs B, c.length ≤ B) ∧
    ∀ out, embedding encode docs B = some out →
      out.length = docs.length ∧
      ∀ d ∈ out, ∃ v, (vecFieldName v.length, v) ∈ d.vectorFields := by
  refine ⟨?_, ?_, ?_, ?_⟩
  · unfold embeddingCalls
    rw [chunks_length B hB, List.length_map]
  · unfold embeddingCalls
    exact chunks_join B hB _
  · intro c hc
    exact chunksGo_mem_length B _ _ c hc
  · intro out hout
    unfold embedding at hout
    by_cases h : docs.length = (embeddingVects encode docs B).length
    · rw [if_pos h] at hout
      injection hout with hout
      constructor
      · rw [← hout, List.length_map, List.length_zip, ← h]
        exact min_self _
      · intro d hd
        rw [← hout] at hd
        obtain ⟨p, hp, hpd⟩ := List.mem_map.mp hd
        refine ⟨p.2, ?_⟩
        rw [← hpd]
        exact mem_dictInsert_self _ _ _
    · rw [if_neg h] at hout
      exact absurd hout (by simp)

/-- Witness for C5 at a concrete encoder, three documents, batch size 2. -/
theorem spec_c5_witness :
    0 < 2 ∧
    ((embeddingCalls docsW 2).length = (docsW.length + 2 - 1) / 2 ∧
     (embeddingCalls docsW 2).flatten = docsW.map (fun d => d.content_with_weight) ∧
     (∀ c ∈ embeddingCalls docsW 2, c.length ≤ 2) ∧
     ∀ out, embedding encW docsW 2 = some out →
       out.length = docsW.length ∧
       ∀ d ∈ out, ∃ v, (vecFieldName v.length, v) ∈ d.vectorFields) :=
  ⟨by decide, spec_c5 encW docsW 2 (by decide)⟩

/-- Claim C6 (amended): `embedding` returns normally exactly when the
TOTAL number of vectors returned across all batches equals the number of
documents. If every batch returns one vector per input text the call
returns normally; but the converse direction of the claim fails, because
only the aggregate count is asserted (line 69), not the per-batch counts. -/
theorem spec_c6 (encode : List String → List (List Int) × Nat) (docs : List Doc)
    (B : Nat) (hB : 0 < B) :
    ((embedding encode docs B).isSome = true ↔
      docs.length = (embeddingVects encode docs B).length) ∧
    ((∀ c ∈ embeddingCalls docs B, ((encode c).1).length = c.length) →
      (embedding encode docs B).isSome = true) := by
  constructor
  · unfold embedding
    by_cases h : docs.length = (embeddingVects encode docs B).length
    · rw [if_pos h]
      simp [h]
    · rw [if_neg h]
      simp [h]
  · intro hbatch
    have htot : (embeddingVects encode docs B).length = docs.length := by
      unfold embeddingVects
      rw [List.length_flatten, List.map_map]
      have hcong : (embeddingCalls docs B).map (List.length ∘ fun b => (encode b).1)
          = (embeddingCalls docs B).map List.length := by
        apply List.map_congr_left
        intro c hc
        exact hbatch c hc
      rw [hcong, ← List.length_flatten]
      unfold embeddingCalls
      rw [chunks_join B hB, List.length_map]
    unfold embedding
    rw [if_pos htot.symm]
    rfl

/-- Witness for C6: a well-behaved encoder satisfies the per-batch
hypothesis and the call returns normally. -/
theorem spec_c6_witness :
    0 < 2 ∧
    (∀ c ∈ embeddingCalls docsW 2, ((encW c).1).length = c.length) ∧
    (embedding encW docsW 2).isSome = true :=
  ⟨by decide, by decide, (spec_c6 encW docsW 2 (by decide)).2 (by decide)⟩

/-- Counterexample to C6 as stated: the encoder returns two vectors for
the first singleton batch and none for the second, so both per-batch
counts are wrong (2 and 0 against batch sizes 1 and 1), yet the total
matches and `embedding` returns normally instead of aborting. -/
theorem spec_c6_counterexample :
    embeddingCalls docs2W 1 = [[("ta")], [("tb")]] ∧
    ((encBad [("ta")]).1).length = 2 ∧
    ((encBad [("tb")]).1).length = 0 ∧
    ([("ta")] : List String).length = 1 ∧
    (embedding encBad docs2W 1).isSome = true := by decide
